import Mathlib

/-!
Shallow embedding of the flower-shop voice-assistant web application:
audio sample conversion and chunking (`AudioConverter`), transcription
joining (`AudioProcessor.processPipeline`), the tool registry
(`ToolRegistry.executeToolCall`), the input-modal manager
(`ModalManager`), and the conversation orchestrator
(`VisualAIService.getResponse`), together with theorems settling the
specification claims about them.

Machine floats are modelled as rationals; JavaScript signed 16-bit
conversion is modelled with explicit truncation toward zero and a
`% 2^16` wrap.  Network requests and asynchronous resolution are
modelled by an explicit environment of outcomes.
-/

namespace FloraApp

/-! ## Audio conversion (`AudioConverter.float32ToWav`, `chunkAudio`) -/

/-- Clamp of one float sample: `Math.max(-1, Math.min(1, audioData[i]))`. -/
def clampSample (x : ℚ) : ℚ := max (-1) (min 1 x)

/-- Scaling of a clamped sample: `s < 0 ? s * 0x8000 : s * 0x7FFF`. -/
def scaleSample (x : ℚ) : ℚ :=
  if clampSample x < 0 then clampSample x * 32768 else clampSample x * 32767

/-- Truncation toward zero, as JavaScript number-to-integer conversion does. -/
def ratTrunc (q : ℚ) : ℤ := if q < 0 then -(Int.floor (-q)) else Int.floor q

/-- The ToInt16 conversion applied when storing into an `Int16Array`:
wrap modulo `2^16`, then reinterpret as a signed 16-bit value. -/
def toInt16 (v : ℤ) : ℤ :=
  if v % 65536 ≥ 32768 then v % 65536 - 65536 else v % 65536

/-- One iteration of the sample loop in `float32ToWav`:
`int16Array[i] = s < 0 ? s * 0x8000 : s * 0x7FFF` with
`s = Math.max(-1, Math.min(1, audioData[i]))`. -/
def jsToInt16Sample (x : ℚ) : ℤ := toInt16 (ratTrunc (scaleSample x))

/-- The 16-bit sample payload produced by `AudioConverter.float32ToWav`
(the WAV container around it carries no further sample data). -/
def float32ToWav (l : List ℚ) : List ℤ := l.map jsToInt16Sample

/-- The chunking loop of `chunkAudio`:
`for (let i = 0; i < audioData.length; i += samplesPerChunk)` pushing
`audioData.slice(i, Math.min(i + samplesPerChunk, audioData.length))`.
With a zero step the source loop would never terminate on non-empty
input; that case is unreachable for the positive durations the claims
quantify over, and is given the value `[]` here. -/
def chunkList : ℕ → List ℚ → List (List ℚ)
  | _, [] => []
  | 0, _ :: _ => []
  | m + 1, x :: xs => ((x :: xs).take (m + 1)) :: chunkList (m + 1) ((x :: xs).drop (m + 1))
termination_by _ l => l.length
decreasing_by simp [List.length_drop]; omega

/-- `Math.floor((chunkDurationMs / 1000) * 16000)` for an integral
millisecond duration. -/
def samplesPerChunk (chunkDurationMs : ℕ) : ℕ :=
  (Int.floor ((chunkDurationMs : ℚ) / 1000 * 16000)).toNat

/-- The sample windows produced by `AudioConverter.chunkAudio`. -/
def chunkAudioSamples (audioData : List ℚ) (chunkDurationMs : ℕ) : List (List ℚ) :=
  chunkList (samplesPerChunk chunkDurationMs) audioData

/-- `AudioConverter.chunkAudio`: each window is independently encoded by
`float32ToWav`. -/
def chunkAudio (audioData : List ℚ) (chunkDurationMs : ℕ) : List (List ℤ) :=
  (chunkAudioSamples audioData chunkDurationMs).map float32ToWav

/-! ## Transcript joining (`AudioProcessor.processPipeline`) -/

/-- The transcript accumulation loop:
`fullTranscript += (i > 0 ? ' ' : '') + result.text`. -/
def joinTranscriptsAux : ℕ → String → List String → String
  | _, acc, [] => acc
  | i, acc, t :: ts =>
      joinTranscriptsAux (i + 1) (acc ++ (if 0 < i then " " else "") ++ t) ts

/-- The full transcript built by `processPipeline` from the per-chunk
response texts, before the final `.trim()`. -/
def joinTranscripts (texts : List String) : String := joinTranscriptsAux 0 "" texts

/-- Specification-side join: the texts in order with exactly one space
between consecutive texts (stated from the spec's words, for
comparison with `joinTranscripts`). -/
def spaceJoin : List String → String
  | [] => ""
  | [t] => t
  | t :: u :: ts => t ++ " " ++ spaceJoin (u :: ts)

/-- Helper: a run of texts each preceded by one space. -/
def tailJoin : List String → String
  | [] => ""
  | t :: ts => " " ++ t ++ tailJoin ts

/-- Number of transcription uploads `processPipeline` performs: one per
chunk of the default 30000 ms chunking. -/
def pipelineUploadCount (audio : List ℚ) : ℕ :=
  (chunkAudioSamples audio 30000).length

/-- The joined transcript `processPipeline` accumulates before any AI
call, given the response text of each upload. -/
def pipelineTranscriptRaw (audio : List ℚ) (texts : ℕ → String) : String :=
  joinTranscripts ((List.range (pipelineUploadCount audio)).map texts)

/-! ## String helpers -/

/-- JavaScript `String.prototype.includes`. -/
def strIncludes (s sub : String) : Bool :=
  s.toList.tails.any (fun t => sub.toList.isPrefixOf t)

/-- JavaScript `Array.prototype.slice(-n)`: the most recent `n` elements. -/
def lastN (n : ℕ) (l : List α) : List α := l.drop (l.length - n)

/-! ## Tool registry (`ToolRegistry.executeToolCall`) -/

/-- Result of running one tool. -/
structure ToolResult where
  result : String
  isError : Bool
deriving DecidableEq, Repr

/-- The `function` field of a tool call: a tool name and a raw JSON
argument payload. -/
structure ToolCallFunction where
  name : String
  arguments : String
deriving DecidableEq, Repr

/-- A tool call requested by the model. -/
structure ToolCall where
  function : ToolCallFunction
deriving DecidableEq, Repr

/-- `ToolRegistry.executeToolCall`, parameterised by the parsing of the
argument payload (`JSON.parse`, which may throw) and by the registry's
name-to-tool map (whose `execute` may throw).  Thrown exceptions are
modelled by `Except.error` carrying the exception message; the
surrounding `try`/`catch` converts them into an is-error `ToolResult`. -/
def executeToolCall {P : Type} (parse : String → Except String P)
    (tools : String → Option (P → Except String ToolResult))
    (toolCall : ToolCall) : ToolResult :=
  match tools toolCall.function.name with
  | none =>
      { result := "Error: Unknown tool \"" ++ toolCall.function.name ++ "\""
        isError := true }
  | some ex =>
      match parse toolCall.function.arguments with
      | Except.error msg =>
          { result := "Error executing tool: " ++ msg, isError := true }
      | Except.ok params =>
          match ex params with
          | Except.error msg =>
              { result := "Error executing tool: " ++ msg, isError := true }
          | Except.ok r => r

/-! ## Modal manager (`ModalManager`, `show_input_modal`) -/

/-- The singleton modal state: `isOpen`, the typed `value`, and whether a
pending `resolve` callback is stored (`resolve !== null`). -/
structure ModalState where
  isOpen : Bool
  value : String
  hasResolver : Bool
deriving DecidableEq, Repr

/-- `ModalManager.openModal`: installs a fresh open state with an empty
value and a pending resolver for the new promise. -/
def openModal (_s : ModalState) : ModalState :=
  { isOpen := true, value := "", hasResolver := true }

/-- `ModalManager.updateValue`. -/
def updateValue (s : ModalState) (v : String) : ModalState :=
  { s with value := v }

/-- JavaScript `value || fallback` on an optional string argument:
`undefined` and the empty string are falsy. -/
def jsOrDefault (arg : Option String) (fallback : String) : String :=
  match arg with
  | none => fallback
  | some v => if v = "" then fallback else v

/-- `ModalManager.closeModal(value?)`: resolves the pending promise (if
any) with `value || state.value`, and resets the state.  The first
component is the value the pending promise is resolved with. -/
def closeModal (arg : Option String) (s : ModalState) : Option String × ModalState :=
  ((if s.hasResolver then some (jsOrDefault arg s.value) else none),
   { isOpen := false, value := "", hasResolver := false })

/-- The `show_input_modal` tool's result once the modal promise has
resolved with `v`: `` `User input: ${userInput}` `` with `isError: false`. -/
def showInputModalResult (v : String) : ToolResult :=
  { result := "User input: " ++ v, isError := false }

/-! ## Conversation orchestrator (`VisualAIService`) -/

/-- Message content: plain text, or a text part together with an
image-url part (the camera frame). -/
inductive Content where
  | text (s : String)
  | multi (s : String) (imageUrl : String)
deriving DecidableEq, Repr

/-- One entry of `conversationHistory`. -/
structure Msg where
  role : String
  content : Content
  name : Option String
deriving DecidableEq, Repr

/-- Which of the up-to-three chat requests of one turn a `Request`
records. -/
inductive ReqKind where
  | initialReq
  | retryReq
  | finalReq
deriving DecidableEq, Repr

/-- One chat-completions request issued by `makeGroqRequest`, as
observed from outside: whether tools were attached and the message
list sent. -/
structure Request where
  kind : ReqKind
  includeTools : Bool
  messages : List Msg
deriving DecidableEq, Repr

/-- A successful chat-completions response:
`choices[0].message.content` and `choices[0].message.tool_calls`
(the empty list standing for an absent or empty array, which the
orchestrator treats identically). -/
structure GroqResult where
  content : String
  toolCalls : List ToolCall
deriving DecidableEq, Repr

/-- A non-ok HTTP response from the chat endpoint. -/
structure GroqError where
  status : ℕ
  body : String
deriving DecidableEq, Repr

/-- The message of the error `makeGroqRequest` throws on a non-ok
response: `` `Groq API error (${response.status}): ${errorText}` ``. -/
def groqErrorMessage (e : GroqError) : String :=
  "Groq API error (" ++ toString e.status ++ "): " ++ e.body

/-- The environment of one `getResponse` turn: the outcome of the
initial tool-augmented request, of the tools-omitted retry, the (total,
by `executeToolCall`) tool executor, and the outcome of the final
answer request. -/
structure Env where
  initialOutcome : Except GroqError GroqResult
  retryOutcome : Except GroqError GroqResult
  toolExec : ToolCall → ToolResult
  finalOutcome : Except GroqError GroqResult

/-- One element of the `toolCalls` array `getResponse` returns. -/
structure ToolCallRecord where
  name : String
  result : String
  isError : Bool
deriving DecidableEq, Repr

/-- Everything observable about one `getResponse` turn: the returned
answer (or the thrown error's message), the returned tool-call records,
the conversation history after the turn, and the requests issued. -/
structure TurnResult where
  response : Except String String
  toolCallResults : List ToolCallRecord
  newHistory : List Msg
  requests : List Request

/-- The user message pushed at the start of a turn: text only, or text
plus image content when `imageData` is present. -/
def mkUserMessage (text : String) (imageData : Option String) : Msg :=
  { role := "user"
    content := match imageData with
      | none => Content.text text
      | some url => Content.multi text url
    name := none }

/-- The assistant message pushed before each tool execution:
`` `Let me check ${toolCall.function.name}...` ``. -/
def assistIntentMsg (tc : ToolCall) : Msg :=
  { role := "assistant"
    content := Content.text ("Let me check " ++ tc.function.name ++ "...")
    name := none }

/-- The function message pushed after each tool execution. -/
def funcResultMsg (tc : ToolCall) (tr : ToolResult) : Msg :=
  { role := "function"
    content := Content.text (if tr.isError then "Error: " ++ tr.result else tr.result)
    name := some tc.function.name }

/-- The tool loop of `getResponse`: pushes the intent and function
messages for each call in order, records each outcome, and tracks
`hasSuccessfulToolCall`.  Returns the extended history, the records in
order, and the success flag. -/
def runToolLoop (exec : ToolCall → ToolResult) :
    List Msg → List ToolCall → List Msg × List ToolCallRecord × Bool
  | hist, [] => (hist, [], false)
  | hist, tc :: rest =>
      let tr := exec tc
      let hist2 := hist ++ [assistIntentMsg tc, funcResultMsg tc tr]
      let out := runToolLoop exec hist2 rest
      (out.1, ⟨tc.function.name, tr.result, tr.isError⟩ :: out.2.1,
        (!tr.isError) || out.2.2)

/-- The suffix appended to the system prompt for the final answer
request. -/
def importantNote : String :=
  "\n\nIMPORTANT: Tool calls have just provided valid information. Use this information in your response and do NOT say you can\x27t see or don\x27t have the information."

/-- The system message of the final answer request. -/
def finalSystemMsg (sysPrompt : String) : Msg :=
  { role := "system", content := Content.text (sysPrompt ++ importantNote), name := none }

/-- The canned answer used when processing the tool calls (in
particular the final answer request) throws. -/
def apologyMessage : String :=
  "I apologize, but I encountered an error while trying to process your request. Please try again or rephrase your question."

/-- History pruning at the end of a turn:
`if (length > 10) history = [history[0], ...history.slice(-4)]`. -/
def pruneHistory (hist : List Msg) : List Msg :=
  if 10 < hist.length then hist.take 1 ++ lastN 4 hist else hist

/-- End of a successful turn: push the assistant answer, prune, and
assemble the returned value. -/
def finishTurn (hist : List Msg) (answer : String) (recs : List ToolCallRecord)
    (reqs : List Request) : TurnResult :=
  { response := Except.ok answer
    toolCallResults := recs
    newHistory := pruneHistory (hist ++ [{ role := "assistant", content := Content.text answer, name := none }])
    requests := reqs }

/-- The part of `getResponse` after a successful chat response `r`:
run the tool calls (if any), and issue the final answer request exactly
when some tool call succeeded, with the augmented system prompt plus
`history.slice(-3)` as context; if that request fails, the apology
message becomes the answer. -/
def afterInitial (sysPrompt : String) (env : Env) (hist1 : List Msg)
    (r : GroqResult) (reqs : List Request) : TurnResult :=
  if r.toolCalls = [] then
    finishTurn hist1 r.content [] reqs
  else
    let loop := runToolLoop env.toolExec hist1 r.toolCalls
    if loop.2.2 then
      let reqF : Request :=
        ⟨ReqKind.finalReq, false, finalSystemMsg sysPrompt :: lastN 3 loop.1⟩
      match env.finalOutcome with
      | Except.ok fr => finishTurn loop.1 fr.content loop.2.1 (reqs ++ [reqF])
      | Except.error _ => finishTurn loop.1 apologyMessage loop.2.1 (reqs ++ [reqF])
    else
      finishTurn loop.1 r.content loop.2.1 reqs

/-- `VisualAIService.getResponse`: push the user message, issue the
tool-augmented request, retry once without tools when the thrown
message contains "400", run the tool calls, optionally issue the final
answer request, push the answer, and prune the history.  A thrown
error surfaces as `Except.error` with the outer catch's message. -/
def getResponse (sysPrompt : String) (env : Env) (hist : List Msg)
    (text : String) (imageData : Option String) : TurnResult :=
  let hist1 := hist ++ [mkUserMessage text imageData]
  let req1 : Request := ⟨ReqKind.initialReq, true, hist1⟩
  match env.initialOutcome with
  | Except.error e =>
      if strIncludes (groqErrorMessage e) "400" then
        let req2 : Request := ⟨ReqKind.retryReq, false, hist1⟩
        match env.retryOutcome with
        | Except.error e2 =>
            { response := Except.error ("Error processing request: " ++ groqErrorMessage e2)
              toolCallResults := []
              newHistory := hist1
              requests := [req1, req2] }
        | Except.ok r => afterInitial sysPrompt env hist1 r [req1, req2]
      else
        { response := Except.error ("Error processing request: " ++ groqErrorMessage e)
          toolCallResults := []
          newHistory := hist1
          requests := [req1] }
  | Except.ok r => afterInitial sysPrompt env hist1 r [req1]

/-- `VisualAIService.clearHistory`: keep only the first (system)
message. -/
def clearHistory (hist : List Msg) : List Msg := hist.take 1

/-! ## Concrete inputs used by the witnesses -/

/-- A 20-sample silent recording. -/
def audioW : List ℚ := List.replicate 20 0

/-- A parse function for the registry witness. -/
def parseW : String → Except String ℕ := fun s => Except.ok s.length

/-- A registry with no tools registered. -/
def toolsNoneW : String → Option (ℕ → Except String ToolResult) := fun _ => none

/-- A call to an unregistered tool. -/
def callW : ToolCall := ⟨⟨"foo", "null"⟩⟩

/-- A tool call whose execution fails. -/
def tcFail : ToolCall := ⟨⟨"bad_tool", "null"⟩⟩

/-- A tool call whose execution succeeds. -/
def tcOk : ToolCall := ⟨⟨"gemini_search", "null"⟩⟩

/-- A first response requesting a failing call and then a succeeding
call, in that order. -/
def rC2 : GroqResult := ⟨"first content", [tcFail, tcOk]⟩

/-- Tool behaviour: `bad_tool` errors, everything else succeeds. -/
def execC2 : ToolCall → ToolResult := fun tc =>
  if tc.function.name = "bad_tool" then ⟨"boom", true⟩ else ⟨"sunny", false⟩

/-- Environment for the turn with one failing and one succeeding tool
call. -/
def envC2 : Env :=
  ⟨Except.ok rC2, Except.error ⟨0, ""⟩, execC2, Except.ok ⟨"final answer", []⟩⟩

/-- A system message used as history head in witnesses. -/
def sysMsgW : Msg := ⟨"system", Content.text "S", none⟩

/-- Environment whose initial request is rejected with HTTP 500. -/
def envC3bad : Env :=
  ⟨Except.error ⟨500, "boom"⟩, Except.error ⟨0, ""⟩, fun _ => ⟨"", true⟩,
   Except.error ⟨0, ""⟩⟩

/-- Environment whose initial request is rejected with HTTP 400 and
whose retry is rejected with HTTP 502. -/
def envC3retry : Env :=
  ⟨Except.error ⟨400, "bad"⟩, Except.error ⟨502, "gw"⟩, fun _ => ⟨"", true⟩,
   Except.error ⟨0, ""⟩⟩

/-- Environment with a plain successful response and no tool calls. -/
def envW : Env :=
  ⟨Except.ok ⟨"ok", []⟩, Except.error ⟨0, ""⟩, fun _ => ⟨"", true⟩,
   Except.error ⟨0, ""⟩⟩

/-! ## Theorems: audio conversion -/

theorem clampSample_bounds (x : ℚ) : -1 ≤ clampSample x ∧ clampSample x ≤ 1 := by
  unfold clampSample
  exact ⟨le_max_left _ _, max_le (by norm_num) (min_le_left _ _)⟩

theorem scaleSample_bounds (x : ℚ) :
    -32768 ≤ scaleSample x ∧ scaleSample x ≤ 32767 := by
  obtain ⟨h1, h2⟩ := clampSample_bounds x
  unfold scaleSample
  by_cases h : clampSample x < 0
  · rw [if_pos h]
    constructor <;> nlinarith
  · rw [if_neg h]
    push_neg at h
    constructor <;> nlinarith

theorem ratTrunc_bounds (q : ℚ) (h1 : -32768 ≤ q) (h2 : q ≤ 32767) :
    -32768 ≤ ratTrunc q ∧ ratTrunc q ≤ 32767 := by
  unfold ratTrunc
  by_cases h : q < 0
  · rw [if_pos h]
    have hnn : (0:ℚ) ≤ -q := by linarith
    have hfl : (0:ℤ) ≤ Int.floor (-q) := Int.floor_nonneg.mpr hnn
    have hub : ((Int.floor (-q) : ℤ) : ℚ) ≤ -q := Int.floor_le _
    have : ((Int.floor (-q) : ℤ) : ℚ) ≤ 32768 := by linarith
    have hle : Int.floor (-q) ≤ 32768 := by exact_mod_cast this
    omega
  · rw [if_neg h]
    push_neg at h
    have hfl : (0:ℤ) ≤ Int.floor q := Int.floor_nonneg.mpr h
    have hub : ((Int.floor q : ℤ) : ℚ) ≤ q := Int.floor_le _
    have : ((Int.floor q : ℤ) : ℚ) ≤ 32767 := by linarith
    have hle : Int.floor q ≤ 32767 := by exact_mod_cast this
    omega

theorem toInt16_of_in_range (v : ℤ) (h1 : -32768 ≤ v) (h2 : v ≤ 32767) :
    toInt16 v = v := by
  unfold toInt16
  omega

/-- C5: the encoder clamps each sample to the interval from -1 to 1
before scaling (negative values scaled by 2^15, non-negative by
2^15 - 1), so every produced 16-bit sample lies within the signed
16-bit range from -32768 to 32767 and no conversion overflows (the
16-bit wrap is the identity on every produced value). -/
theorem float32ToWav_no_overflow :
    (∀ (l : List ℚ) (y : ℤ), y ∈ float32ToWav l → -32768 ≤ y ∧ y ≤ 32767) ∧
    (∀ x : ℚ, jsToInt16Sample x = ratTrunc (scaleSample x)) := by
  have key : ∀ x : ℚ, jsToInt16Sample x = ratTrunc (scaleSample x) ∧
      -32768 ≤ jsToInt16Sample x ∧ jsToInt16Sample x ≤ 32767 := by
    intro x
    obtain ⟨hs1, hs2⟩ := scaleSample_bounds x
    obtain ⟨ht1, ht2⟩ := ratTrunc_bounds _ hs1 hs2
    unfold jsToInt16Sample
    rw [toInt16_of_in_range _ ht1 ht2]
    exact ⟨rfl, ht1, ht2⟩
  constructor
  · intro l y hy
    obtain ⟨x, _, hxy⟩ := List.mem_map.mp hy
    rw [← hxy]
    exact (key x).2
  · intro x
    exact (key x).1

/-- Witness for C5 at a sample above 1: it clamps and encodes to 32767,
within range. -/
theorem float32ToWav_eval : float32ToWav [3/2] = [32767] := by
  unfold float32ToWav jsToInt16Sample scaleSample clampSample ratTrunc toInt16
  norm_num

/-- Witness for C5 at a sample above 1: it clamps and encodes to 32767,
within range. -/
theorem float32ToWav_no_overflow_witness :
    -32768 ≤ (32767 : ℤ) ∧ (32767 : ℤ) ≤ 32767 :=
  float32ToWav_no_overflow.1 [3/2] 32767 (by rw [float32ToWav_eval]; exact List.mem_singleton.mpr rfl)

/-! ## Theorems: audio chunking -/

theorem chunkList_nil (n : ℕ) : chunkList n [] = [] := by
  cases n <;> rw [chunkList]

theorem chunkList_spec (m : ℕ) (k : ℕ) : ∀ (l : List ℚ), l.length ≤ k →
    (chunkList (m + 1) l).flatten = l ∧
    (∀ c ∈ (chunkList (m + 1) l).dropLast, c.length = m + 1) ∧
    (∀ c, (chunkList (m + 1) l).getLast? = some c → c.length ≤ m + 1) := by
  induction k with
  | zero =>
      intro l hl
      have hl0 : l = [] := List.length_eq_zero.mp (Nat.le_zero.mp hl)
      subst hl0
      simp [chunkList_nil]
  | succ k ih =>
      intro l hl
      match l with
      | [] => simp [chunkList_nil]
      | x :: xs =>
        rw [chunkList]
        have hdlen : ((x :: xs).drop (m + 1)).length ≤ k := by
          simp only [List.length_drop, List.length_cons] at *
          omega
        obtain ⟨ihj, ihd, ihl⟩ := ih _ hdlen
        refine ⟨?_, ?_, ?_⟩
        · rw [List.flatten_cons, ihj, List.take_append_drop]
        · cases hrest : chunkList (m + 1) ((x :: xs).drop (m + 1)) with
          | nil => simp
          | cons c cs =>
              have hdne : (x :: xs).drop (m + 1) ≠ [] := by
                intro hd
                rw [hd, chunkList_nil] at hrest
                exact List.noConfusion hrest
              have hlen : m + 1 < (x :: xs).length := by
                by_contra hle
                push_neg at hle
                exact hdne (List.drop_eq_nil_of_le hle)
              rw [hrest] at ihd
              intro d hd
              rw [List.dropLast_cons₂] at hd
              rcases List.mem_cons.mp hd with h1 | h2
              · rw [h1, List.length_take]
                omega
              · exact ihd d h2
        · cases hrest : chunkList (m + 1) ((x :: xs).drop (m + 1)) with
          | nil =>
              intro c hc
              simp only [hrest, List.getLast?_singleton, Option.some.injEq] at hc
              rw [← hc, List.length_take]
              omega
          | cons c cs =>
              rw [hrest] at ihl
              intro d hd
              rw [List.getLast?_cons_cons] at hd
              exact ihl d hd

theorem samplesPerChunk_eq (d : ℕ) : samplesPerChunk d = 16 * d := by
  unfold samplesPerChunk
  have h : ((d : ℚ) / 1000 * 16000) = ((16 * d : ℕ) : ℚ) := by push_cast; ring
  rw [h, Int.floor_natCast, Int.toNat_natCast]

/-- Claim C6: for every sample array and every positive chunk duration,
`chunkAudio` slices the array into consecutive non-overlapping windows:
their concatenation is the original array (so lengths sum to the
original length, samples stay in order with no overlap or gap), every
window except possibly the last has length exactly the window size
`samplesPerChunk`, and the last window's length is at most the window
size. -/
theorem chunkAudio_partition (d : ℕ) (hd : 0 < d) (l : List ℚ) :
    (chunkAudioSamples l d).flatten = l ∧
    (∀ c ∈ (chunkAudioSamples l d).dropLast, c.length = samplesPerChunk d) ∧
    (∀ c, (chunkAudioSamples l d).getLast? = some c → c.length ≤ samplesPerChunk d) := by
  have h16 : samplesPerChunk d = 16 * d := samplesPerChunk_eq d
  obtain ⟨m, hm⟩ : ∃ m, samplesPerChunk d = m + 1 := ⟨16 * d - 1, by omega⟩
  unfold chunkAudioSamples
  rw [hm]
  exact chunkList_spec m l.length l le_rfl

/-- Witness for C6: the 20-sample recording chunked at 1 ms (16-sample
windows). -/
theorem chunkAudio_partition_witness :
    (chunkAudioSamples audioW 1).flatten = audioW ∧
    (∀ c ∈ (chunkAudioSamples audioW 1).dropLast, c.length = samplesPerChunk 1) ∧
    (∀ c, (chunkAudioSamples audioW 1).getLast? = some c →
        c.length ≤ samplesPerChunk 1) :=
  chunkAudio_partition 1 (by decide) audioW

/-- Claim C10: for the empty sample array `chunkAudio` returns an empty
list of chunks (not one zero-length chunk), so a pipeline run over
empty audio performs zero transcription uploads and the joined
transcript before any AI call is the empty string; for every non-empty
sample array (and positive chunk duration) `chunkAudio` returns at
least one chunk. -/
theorem chunkAudio_empty_iff :
    (∀ d, chunkAudioSamples [] d = []) ∧
    pipelineUploadCount [] = 0 ∧
    (∀ texts, pipelineTranscriptRaw [] texts = "") ∧
    (∀ (d : ℕ) (l : List ℚ), 0 < d → l ≠ [] → chunkAudioSamples l d ≠ []) := by
  have hempty : ∀ d, chunkAudioSamples ([] : List ℚ) d = [] := by
    intro d
    unfold chunkAudioSamples
    exact chunkList_nil _
  have hcount : pipelineUploadCount [] = 0 := by
    unfold pipelineUploadCount
    rw [hempty]
    rfl
  refine ⟨hempty, hcount, ?_, ?_⟩
  · intro texts
    unfold pipelineTranscriptRaw
    rw [hcount]
    rfl
  · intro d l hd hl
    obtain ⟨m, hm⟩ : ∃ m, samplesPerChunk d = m + 1 := by
      have := samplesPerChunk_eq d
      exact ⟨16 * d - 1, by omega⟩
    match l with
    | [] => exact absurd rfl hl
    | x :: xs =>
        unfold chunkAudioSamples
        rw [hm, chunkList]
        exact List.cons_ne_nil _ _

/-- Witness for C10: a one-sample array yields at least one chunk. -/
theorem chunkAudio_empty_iff_witness : chunkAudioSamples [0] 1 ≠ [] :=
  chunkAudio_empty_iff.2.2.2 1 [0] (by decide) (List.cons_ne_nil 0 [])

/-! ## Theorems: transcript joining -/

theorem joinTranscriptsAux_shift (ts : List String) : ∀ (i : ℕ) (acc : String),
    joinTranscriptsAux (i + 1) acc ts = acc ++ tailJoin ts := by
  induction ts with
  | nil =>
      intro i acc
      rw [joinTranscriptsAux, tailJoin, String.append_empty]
  | cons t ts ih =>
      intro i acc
      rw [joinTranscriptsAux, if_pos (Nat.succ_pos i), ih (i + 1), tailJoin]
      simp [String.append_assoc]

theorem spaceJoin_cons (ts : List String) : ∀ t : String,
    spaceJoin (t :: ts) = t ++ tailJoin ts := by
  induction ts with
  | nil =>
      intro t
      rw [spaceJoin, tailJoin, String.append_empty]
  | cons u ts ih =>
      intro t
      rw [spaceJoin, ih u, tailJoin]
      simp [String.append_assoc]

/-- Claim C7: the transcription client concatenates the per-chunk text
fields in chunk order with exactly one space inserted between
consecutive texts, regardless of existing whitespace; in particular
for the chunk texts "hello " and "world" the combined transcript is
exactly "hello  world" (two spaces). -/
theorem joinTranscripts_spec :
    (∀ texts, joinTranscripts texts = spaceJoin texts) ∧
    joinTranscripts ["hello ", "world"] = "hello  world" := by
  constructor
  · intro texts
    match texts with
    | [] => rfl
    | t :: ts =>
        unfold joinTranscripts
        rw [joinTranscriptsAux, joinTranscriptsAux_shift ts 0, spaceJoin_cons]
        simp [String.empty_append]
  · rfl

/-! ## Theorems: tool registry -/

/-- Claim C1: for every ToolCall, `executeToolCall` returns a ToolResult
and never throws (it is a total function into `ToolResult`): an
unregistered name yields an is-error "Unknown tool" result; an
exception raised while parsing the argument payload or while running
the tool's execution function is caught and returned as an is-error
result; otherwise the execution function's own ToolResult is returned
unchanged. -/
theorem executeToolCall_spec {P : Type} (parse : String → Except String P)
    (tools : String → Option (P → Except String ToolResult)) (call : ToolCall) :
    (tools call.function.name = none →
        executeToolCall parse tools call =
          ⟨"Error: Unknown tool \"" ++ call.function.name ++ "\"", true⟩) ∧
    (∀ ex, tools call.function.name = some ex →
      (∀ msg, parse call.function.arguments = Except.error msg →
          executeToolCall parse tools call =
            ⟨"Error executing tool: " ++ msg, true⟩) ∧
      (∀ p, parse call.function.arguments = Except.ok p →
        (∀ msg, ex p = Except.error msg →
            executeToolCall parse tools call =
              ⟨"Error executing tool: " ++ msg, true⟩) ∧
        (∀ r, ex p = Except.ok r → executeToolCall parse tools call = r))) := by
  unfold executeToolCall
  constructor
  · intro h
    rw [h]
  · intro ex hex
    constructor
    · intro msg hmsg
      simp only [hex, hmsg]
    · intro p hp
      constructor
      · intro msg hmsg
        simp only [hex, hp, hmsg]
      · intro r hr
        simp only [hex, hp, hr]

/-- Witness for C1: calling the unregistered tool "foo" yields the
is-error unknown-tool result. -/
theorem executeToolCall_spec_witness :
    executeToolCall parseW toolsNoneW callW =
      ⟨"Error: Unknown tool \"foo\"", true⟩ :=
  (executeToolCall_spec parseW toolsNoneW callW).1 rfl

/-! ## Theorems: modal manager -/

theorem foldl_updateValue_hasResolver (us : List String) :
    ∀ s : ModalState, (us.foldl updateValue s).hasResolver = s.hasResolver := by
  induction us with
  | nil => intro s; rfl
  | cons u us ih => intro s; rw [List.foldl_cons, ih]; rfl

/-- Claim C8: invoking `show_input_modal` while no modal is open opens
the modal (with a pending resolver, so the tool's execution suspends
until the modal is resolved), and whatever edits happen before the
modal is closed, it resolves with some value v and the tool's
ToolResult is is-error=false with text exactly "User input: " ++ v. -/
theorem showInputModal_spec (s : ModalState) (_hs : s.isOpen = false) :
    (openModal s).isOpen = true ∧ (openModal s).hasResolver = true ∧
    (∀ (updates : List String) (arg : Option String), ∃ v,
        (closeModal arg (updates.foldl updateValue (openModal s))).1 = some v ∧
        showInputModalResult v = ⟨"User input: " ++ v, false⟩) := by
  refine ⟨rfl, rfl, ?_⟩
  intro updates arg
  refine ⟨jsOrDefault arg (updates.foldl updateValue (openModal s)).value, ?_, rfl⟩
  unfold closeModal
  rw [foldl_updateValue_hasResolver]
  rfl

/-- Witness for C8: opening from the initial closed state. -/
theorem showInputModal_spec_witness :
    (openModal ⟨false, "", false⟩).isOpen = true ∧
    (openModal ⟨false, "", false⟩).hasResolver = true ∧
    (∀ (updates : List String) (arg : Option String), ∃ v,
        (closeModal arg (updates.foldl updateValue (openModal ⟨false, "", false⟩))).1 = some v ∧
        showInputModalResult v = ⟨"User input: " ++ v, false⟩) :=
  showInputModal_spec ⟨false, "", false⟩ rfl

/-- Claim C9: when `updateValue` last stored a non-empty string s,
calling `closeModal` with the empty string (or with no argument)
resolves the pending promise with s, not with the empty string;
the resolution is the empty string only when the stored value is
itself empty. -/
theorem closeModal_keeps_typed_value (st : ModalState) (s : String)
    (_hs : s ≠ "") (hr : st.hasResolver = true) :
    (closeModal (some "") (updateValue st s)).1 = some s ∧
    (closeModal none (updateValue st s)).1 = some s ∧
    (∀ st2 : ModalState, st2.hasResolver = true →
        ((closeModal (some "") st2).1 = some "" ↔ st2.value = "")) := by
  unfold closeModal updateValue jsOrDefault
  refine ⟨?_, ?_, ?_⟩
  · simp [hr]
  · simp [hr]
  · intro st2 hr2
    simp [hr2]

/-- Witness for C9: cancelling (closing with "") after typing "typed"
resolves with "typed". -/
theorem closeModal_keeps_typed_value_witness :
    (closeModal (some "") (updateValue ⟨true, "", true⟩ "typed")).1 = some "typed" :=
  (closeModal_keeps_typed_value ⟨true, "", true⟩ "typed" (by decide) rfl).1

/-! ## Theorems: conversation orchestrator -/

theorem runToolLoop_success (exec : ToolCall → ToolResult) (calls : List ToolCall) :
    ∀ hist, (runToolLoop exec hist calls).2.2 =
      calls.any (fun tc => !(exec tc).isError) := by
  induction calls with
  | nil => intro hist; rfl
  | cons tc rest ih =>
      intro hist
      rw [runToolLoop]
      simp only [List.any_cons, ih]

theorem runToolLoop_append (exec : ToolCall → ToolResult) (calls : List ToolCall) :
    ∀ hist, ∃ tail, (runToolLoop exec hist calls).1 = hist ++ tail := by
  induction calls with
  | nil => intro hist; exact ⟨[], by rw [runToolLoop]; simp⟩
  | cons tc rest ih =>
      intro hist
      obtain ⟨tail, htail⟩ :=
        ih (hist ++ [assistIntentMsg tc, funcResultMsg tc (exec tc)])
      refine ⟨[assistIntentMsg tc, funcResultMsg tc (exec tc)] ++ tail, ?_⟩
      rw [runToolLoop]
      simp only at htail ⊢
      rw [htail, List.append_assoc]

theorem head?_append_left (l l2 : List Msg) (h : l ≠ []) :
    (l ++ l2).head? = l.head? := by
  cases l with
  | nil => exact absurd rfl h
  | cons x xs => rfl

theorem pruneHistory_head (l : List Msg) (h : l ≠ []) :
    (pruneHistory l).head? = l.head? ∧ pruneHistory l ≠ [] := by
  unfold pruneHistory
  by_cases hl : 10 < l.length
  · rw [if_pos hl]
    cases l with
    | nil => exact absurd rfl h
    | cons x xs =>
        constructor
        · rfl
        · exact List.cons_ne_nil _ _
  · rw [if_neg hl]
    exact ⟨rfl, h⟩

theorem finishTurn_head (hist : List Msg) (h : hist ≠ []) (answer : String)
    (recs : List ToolCallRecord) (reqs : List Request) :
    ((finishTurn hist answer recs reqs).newHistory).head? = hist.head? ∧
    (finishTurn hist answer recs reqs).newHistory ≠ [] := by
  unfold finishTurn
  have h1 : hist ++ [({ role := "assistant", content := Content.text answer, name := none } : Msg)] ≠ [] := by
    simp
  obtain ⟨hp1, hp2⟩ := pruneHistory_head _ h1
  simp only
  rw [hp1, head?_append_left _ _ h]
  exact ⟨rfl, hp2⟩

theorem afterInitial_head (sysPrompt : String) (env : Env) (hist1 : List Msg)
    (h1 : hist1 ≠ []) (r : GroqResult) (reqs : List Request) :
    ((afterInitial sysPrompt env hist1 r reqs).newHistory).head? = hist1.head? ∧
    (afterInitial sysPrompt env hist1 r reqs).newHistory ≠ [] := by
  unfold afterInitial
  by_cases hc : r.toolCalls = []
  · rw [if_pos hc]
    exact finishTurn_head _ h1 _ _ _
  · rw [if_neg hc]
    obtain ⟨tail, htail⟩ := runToolLoop_append env.toolExec r.toolCalls hist1
    have hloopne : (runToolLoop env.toolExec hist1 r.toolCalls).1 ≠ [] := by
      rw [htail]
      cases hist1 with
      | nil => exact absurd rfl h1
      | cons x xs => exact List.cons_ne_nil _ _
    have hlhead : ((runToolLoop env.toolExec hist1 r.toolCalls).1).head? = hist1.head? := by
      rw [htail]
      exact head?_append_left _ _ h1
    by_cases hs : (runToolLoop env.toolExec hist1 r.toolCalls).2.2
    · rw [if_pos hs]
      cases hfin : env.finalOutcome with
      | ok fr =>
          obtain ⟨hh, hne⟩ := finishTurn_head _ hloopne fr.content
            (runToolLoop env.toolExec hist1 r.toolCalls).2.1
            (reqs ++ [⟨ReqKind.finalReq, false,
              finalSystemMsg sysPrompt :: lastN 3 (runToolLoop env.toolExec hist1 r.toolCalls).1⟩])
          rw [hh] at *
          exact ⟨hlhead, hne⟩
      | error e =>
          obtain ⟨hh, hne⟩ := finishTurn_head _ hloopne apologyMessage
            (runToolLoop env.toolExec hist1 r.toolCalls).2.1
            (reqs ++ [⟨ReqKind.finalReq, false,
              finalSystemMsg sysPrompt :: lastN 3 (runToolLoop env.toolExec hist1 r.toolCalls).1⟩])
          rw [hh] at *
          exact ⟨hlhead, hne⟩
    · rw [if_neg hs]
      obtain ⟨hh, hne⟩ := finishTurn_head _ hloopne r.content
        (runToolLoop env.toolExec hist1 r.toolCalls).2.1 reqs
      rw [hh] at *
      exact ⟨hlhead, hne⟩

/-- Claim C4: whenever the conversation history exceeds the retention
cap (10) it is pruned to exactly the first message plus the most
recent 4 messages, so the system message at index 0 is never evicted:
after every call to `getResponse` (and after `clearHistory`) the head
of the history is still the original first message. -/
theorem systemMessage_never_evicted (sysPrompt : String) (env : Env)
    (hist : List Msg) (text : String) (imageData : Option String)
    (hne : hist ≠ []) :
    ((getResponse sysPrompt env hist text imageData).newHistory).head? = hist.head? ∧
    (getResponse sysPrompt env hist text imageData).newHistory ≠ [] ∧
    (clearHistory hist).head? = hist.head? ∧
    (∀ h2 : List Msg, 10 < h2.length →
        pruneHistory h2 = h2.take 1 ++ lastN 4 h2) := by
  have hclear : (clearHistory hist).head? = hist.head? := by
    cases hist with
    | nil => exact absurd rfl hne
    | cons x xs => rfl
  have hprune : ∀ h2 : List Msg, 10 < h2.length →
      pruneHistory h2 = h2.take 1 ++ lastN 4 h2 := by
    intro h2 hlen
    unfold pruneHistory
    rw [if_pos hlen]
  have h1ne : hist ++ [mkUserMessage text imageData] ≠ [] := by simp
  have h1head : (hist ++ [mkUserMessage text imageData]).head? = hist.head? :=
    head?_append_left _ _ hne
  unfold getResponse
  cases hinit : env.initialOutcome with
  | ok r =>
      simp only
      obtain ⟨hh, hn⟩ := afterInitial_head sysPrompt env _ h1ne r
        [⟨ReqKind.initialReq, true, hist ++ [mkUserMessage text imageData]⟩]
      rw [hh, h1head]
      exact ⟨rfl, hn, hclear, hprune⟩
  | error e =>
      simp only
      by_cases h400 : strIncludes (groqErrorMessage e) "400"
      · rw [if_pos h400]
        cases hretry : env.retryOutcome with
        | ok r =>
            obtain ⟨hh, hn⟩ := afterInitial_head sysPrompt env _ h1ne r
              [⟨ReqKind.initialReq, true, hist ++ [mkUserMessage text imageData]⟩,
               ⟨ReqKind.retryReq, false, hist ++ [mkUserMessage text imageData]⟩]
            rw [hh, h1head]
            exact ⟨rfl, hn, hclear, hprune⟩
        | error e2 =>
            exact ⟨h1head, h1ne, hclear, hprune⟩
      · rw [if_neg h400]
        exact ⟨h1head, h1ne, hclear, hprune⟩

/-- Witness for C4: a turn starting from the one-message system history
keeps that message at index 0. -/
theorem systemMessage_never_evicted_witness :
    ((getResponse "S" envW [sysMsgW] "q" none).newHistory).head? = some sysMsgW := by
  have h := systemMessage_never_evicted "S" envW [sysMsgW] "q" none
    (List.cons_ne_nil _ _)
  rw [h.1]
  rfl

/-- Claim C2: in a turn whose first response requests tool calls, if at
least one tool call returns is-error=false then exactly one additional
chat request is issued, without tools, whose message list is the
(augmented) system prompt followed by only the 3 most recent history
entries, and its content becomes the final answer; if every tool call
errored, no final request is made and the first response's content is
the final answer. -/
theorem finalAnswer_request_spec (sysPrompt : String) (env : Env)
    (hist : List Msg) (text : String) (imageData : Option String)
    (r : GroqResult) (hinit : env.initialOutcome = Except.ok r)
    (hcalls : r.toolCalls ≠ []) :
    (r.toolCalls.any (fun tc => !(env.toolExec tc).isError) = true →
      ((getResponse sysPrompt env hist text imageData).requests.filter
          (fun q => decide (q.kind = ReqKind.finalReq))) =
        [⟨ReqKind.finalReq, false,
           finalSystemMsg sysPrompt ::
             lastN 3 (runToolLoop env.toolExec
               (hist ++ [mkUserMessage text imageData]) r.toolCalls).1⟩] ∧
      (lastN 3 (runToolLoop env.toolExec
          (hist ++ [mkUserMessage text imageData]) r.toolCalls).1).length ≤ 3 ∧
      (∀ fr, env.finalOutcome = Except.ok fr →
          (getResponse sysPrompt env hist text imageData).response =
            Except.ok fr.content)) ∧
    (r.toolCalls.any (fun tc => !(env.toolExec tc).isError) = false →
      ((getResponse sysPrompt env hist text imageData).requests.filter
          (fun q => decide (q.kind = ReqKind.finalReq))) = [] ∧
      (getResponse sysPrompt env hist text imageData).response =
        Except.ok r.content) := by
  have hlast : (lastN 3 (runToolLoop env.toolExec
      (hist ++ [mkUserMessage text imageData]) r.toolCalls).1).length ≤ 3 := by
    unfold lastN
    rw [List.length_drop]
    omega
  simp only [getResponse, hinit]
  simp only [afterInitial, if_neg hcalls, runToolLoop_success]
  constructor
  · intro hany
    rw [if_pos hany]
    cases hfin : env.finalOutcome with
    | ok fr =>
        refine ⟨?_, hlast, ?_⟩
        · simp [finishTurn, List.filter]
        · intro fr2 hfr2
          cases hfr2
          simp [finishTurn]
    | error e =>
        refine ⟨?_, hlast, ?_⟩
        · simp [finishTurn, List.filter]
        · intro fr2 hfr2
          exact Except.noConfusion hfr2
  · intro hany
    rw [if_neg (by rw [hany]; exact Bool.false_ne_true)]
    constructor
    · simp [finishTurn, List.filter]
    · simp [finishTurn]

/-- Witness for C2: after one failing and one succeeding tool call (in
that order), the final answer request still runs and its message list
contains both tool outcomes. -/
theorem finalAnswer_request_spec_witness :
    ((getResponse "S" envC2 [sysMsgW] "hi" none).requests.filter
        (fun q => decide (q.kind = ReqKind.finalReq))) =
      [⟨ReqKind.finalReq, false,
         [finalSystemMsg "S",
          funcResultMsg tcFail ⟨"boom", true⟩,
          assistIntentMsg tcOk,
          funcResultMsg tcOk ⟨"sunny", false⟩]⟩] ∧
    (getResponse "S" envC2 [sysMsgW] "hi" none).response =
      Except.ok "final answer" := by
  have h := (finalAnswer_request_spec "S" envC2 [sysMsgW] "hi" none rC2 rfl
    (by decide)).1 (by decide)
  refine ⟨?_, h.2.2 ⟨"final answer", []⟩ rfl⟩
  rw [h.1]
  rfl

/-- Counterexample to C3 as stated: an initial rejection with HTTP 500
surfaces immediately with no tools-omitted retry (only the single
initial request is issued), refuting "retries exactly once with tools
omitted" for "any non-success status". -/
theorem noRetry_on_500_counterexample :
    (getResponse "S" envC3bad [] "hi" none).requests =
      [⟨ReqKind.initialReq, true, [mkUserMessage "hi" none]⟩] ∧
    (getResponse "S" envC3bad [] "hi" none).response =
      Except.error "Error processing request: Groq API error (500): boom" := by
  constructor <;> rfl

/-- Claim C3 (amended): the orchestrator retries exactly once with
tools omitted only when the initial rejection's error message contains
"400"; if that retry also fails the turn is rejected with an error
carrying the retry rejection's status and body and no further requests
are made; a rejection whose message does not contain "400" surfaces
immediately with no retry. -/
theorem retry_only_on_400 (sysPrompt : String) (env : Env) (hist : List Msg)
    (text : String) (imageData : Option String) (e : GroqError)
    (hinit : env.initialOutcome = Except.error e) :
    (strIncludes (groqErrorMessage e) "400" = true →
      ∀ e2, env.retryOutcome = Except.error e2 →
        (getResponse sysPrompt env hist text imageData).response =
            Except.error ("Error processing request: " ++ groqErrorMessage e2) ∧
        (getResponse sysPrompt env hist text imageData).requests =
            [⟨ReqKind.initialReq, true, hist ++ [mkUserMessage text imageData]⟩,
             ⟨ReqKind.retryReq, false, hist ++ [mkUserMessage text imageData]⟩]) ∧
    (strIncludes (groqErrorMessage e) "400" = false →
      (getResponse sysPrompt env hist text imageData).response =
          Except.error ("Error processing request: " ++ groqErrorMessage e) ∧
      (getResponse sysPrompt env hist text imageData).requests =
          [⟨ReqKind.initialReq, true, hist ++ [mkUserMessage text imageData]⟩]) := by
  simp only [getResponse, hinit]
  constructor
  · intro h400 e2 hretry
    rw [if_pos h400]
    rw [hretry]
    exact ⟨rfl, rfl⟩
  · intro h400
    rw [if_neg (by rw [h400]; exact Bool.false_ne_true)]
    exact ⟨rfl, rfl⟩

/-- Witness for the amended C3: a 400 rejection followed by a failed
retry issues exactly the initial and the tools-omitted retry request
and surfaces the retry's status and body. -/
theorem retry_only_on_400_witness :
    (getResponse "S" envC3retry [] "hi" none).response =
        Except.error "Error processing request: Groq API error (502): gw" ∧
    (getResponse "S" envC3retry [] "hi" none).requests =
        [⟨ReqKind.initialReq, true, [mkUserMessage "hi" none]⟩,
         ⟨ReqKind.retryReq, false, [mkUserMessage "hi" none]⟩] := by
  have h := (retry_only_on_400 "S" envC3retry [] "hi" none ⟨400, "bad"⟩ rfl).1
    (by decide) ⟨502, "gw"⟩ rfl
  refine ⟨h.1, ?_⟩
  rw [h.2]
  rfl

end FloraApp
